import Mathlib

/-!
Verification of the analyze-git-projects repository: a shallow embedding of
its data models, URL parsing, tool-server factory, free-text regex parser,
analyzer orchestration, display summary, JSON round-trip, input-file reader,
and structured-logger context discipline, with theorems settling the frozen
claims about the code.

Python-level conventions modelled here:
- Python dicts are association lists with insertion-order semantics
  (`dictSet` / `dictUpdate` mirror `d[k] = v` and `d.update(e)`).
- Python exceptions are `Except String` results.
- Python strings are Lean `String` / `List Char`; the whitespace set of
  `str.strip` / regex `\s` is modelled by its six ASCII members, which covers
  every input appearing in the source and spec.
-/

/-! ## Python string primitives -/

/-- The six ASCII whitespace characters recognised by Python's `str.strip()`
and by the regex class `\s`. -/
def isPySpace (c : Char) : Bool :=
  c = ' ' || c = '\t' || c = '\n' || c = '\r' || c = '\x0b' || c = '\x0c'

/-- `str.strip()` on a character list: remove leading and trailing whitespace. -/
def pyStripList (cs : List Char) : List Char :=
  ((cs.dropWhile isPySpace).reverse.dropWhile isPySpace).reverse

/-- `str.strip()` on a Lean string. -/
def pyStrip (s : String) : String := String.mk (pyStripList s.data)

/-- `url.rstrip('/')`: remove trailing `'/'` characters. -/
def pyRstripSlash (s : String) : String :=
  String.mk ((s.data.reverse.dropWhile (· = '/')).reverse)

/-- Helper for `str.split(sep)`: accumulates the current segment (reversed). -/
def pySplitAux (sep : Char) : List Char → List Char → List (List Char)
  | [], acc => [acc.reverse]
  | c :: rest, acc =>
    if c = sep then acc.reverse :: pySplitAux sep rest []
    else pySplitAux sep rest (c :: acc)

/-- Python `str.split(sep)` with an explicit separator: every occurrence of
`sep` produces a boundary, so the result has (number of separators + 1)
segments and `"".split(sep) = [""]`. -/
def pySplit (sep : Char) (s : String) : List String :=
  (pySplitAux sep s.data []).map String.mk

/-! ## Repository identity model (`RepositoryInfo.from_url`) -/

structure RepositoryInfo where
  url : String
  name : String
  owner : String
deriving Repr, DecidableEq

/-- The `'/'`-separated segments of the URL after trimming trailing slashes:
`url.rstrip('/').split('/')` from `RepositoryInfo.from_url`. -/
def urlParts (url : String) : List String := pySplit '/' (pyRstripSlash url)

/-- `RepositoryInfo.from_url` (models/other_models.py and
gitingest_analyzer/models.py): `name = parts[-1]`,
`owner = parts[-2] if len(parts) >= 2 else "unknown"`. Python's split always
returns at least one element, so `parts[-1]` never fails; the `getLastD ""`
default is unreachable. -/
def RepositoryInfo.from_url (url : String) : RepositoryInfo :=
  { url := url
    name := (urlParts url).getLastD ""
    owner :=
      if 2 ≤ (urlParts url).length then
        ((urlParts url).get? ((urlParts url).length - 2)).getD ""
      else "unknown" }

/-! ## Analysis result models (gitingest_analyzer/models.py) -/

structure TechnologyStack where
  primary_language : Option String := none
  languages : List String := []
  frameworks : List String := []
  tools : List String := []
  databases : List String := []
  deployment_tools : List String := []
  testing_frameworks : List String := []
deriving Repr, DecidableEq

structure ProjectComplexity where
  level : String
  score : Option Int := none
  factors : List String := []
  file_count : Option Int := none
  lines_of_code : Option Int := none
deriving Repr, DecidableEq

structure CodeQualityMetrics where
  has_tests : Bool := false
  has_documentation : Bool := false
  has_ci_cd : Bool := false
  has_linting : Bool := false
  has_type_checking : Bool := false
  test_coverage : Option String := none
  documentation_quality : Option String := none
  code_organization : Option String := none
deriving Repr, DecidableEq

/-- `AnalysisResults` from gitingest_analyzer/models.py. The Python field
`structure` is a Lean keyword, so it is named `structure_` here; `files`
holds string content under string keys (the analyzer only ever stores
`{"content": text}`), with pydantic default `{}` wrapped in `Optional`. -/
structure AnalysisResults where
  repo_url : String
  repo_info : Option RepositoryInfo := none
  structure_ : Option String := none
  files : Option (List (String × String)) := some []
  error : Option String := none
  tools_used : List String := []
  technology_stack : Option TechnologyStack := none
  project_complexity : Option ProjectComplexity := none
  code_quality : Option CodeQualityMetrics := none
  project_purpose : Option String := none
  key_features : List String := []
  architecture_type : Option String := none
  dependencies : List String := []
  development_practices : List String := []
deriving Repr, DecidableEq

/-- `AnalysisResults.__init__`: after pydantic construction with only
`repo_url`, the constructor derives `repo_info` from the URL whenever
`repo_info` is unset and `repo_url` is truthy (non-empty). -/
def AnalysisResults.init (repo_url : String) : AnalysisResults :=
  { repo_url := repo_url
    repo_info := if repo_url ≠ "" then some (RepositoryInfo.from_url repo_url) else none }

/-- `AnalysisResults.has_error`: the `error` field is non-null. -/
def AnalysisResults.has_error (r : AnalysisResults) : Bool := r.error.isSome

/-- `AnalysisResults.is_complete`: the three nested analysis models are all
non-null and there is no error. -/
def AnalysisResults.is_complete (r : AnalysisResults) : Bool :=
  r.technology_stack.isSome && r.project_complexity.isSome &&
    r.code_quality.isSome && !r.has_error

/-! ## Table projection (`AnalysisResults.to_table_dict`) -/

/-- A Python value appearing in the table dictionary: string, integer,
boolean, or `None`. -/
inductive TableVal where
  | s (v : String)
  | i (v : Int)
  | b (v : Bool)
  | null
deriving Repr, DecidableEq

/-- Python `x or default` on an optional string: `None` and `""` are falsy. -/
def pyOrStr (o : Option String) (default : String) : String :=
  match o with
  | some s => if s = "" then default else s
  | none => default

/-- `AnalysisResults.to_table_dict`: the flat table-row projection with its
placeholder fallbacks, transcribed entry by entry from the source. -/
def AnalysisResults.to_table_dict (r : AnalysisResults) : List (String × TableVal) :=
  [ ("Repository", .s (match r.repo_info with | some ri => ri.name | none => "Unknown")),
    ("Owner", .s (match r.repo_info with | some ri => ri.owner | none => "Unknown")),
    ("Purpose", .s (pyOrStr r.project_purpose "Not specified")),
    ("Languages", .s (match r.technology_stack with
      | some ts => String.intercalate ", " ts.languages
      | none => "Not analyzed")),
    ("Frameworks", .s (match r.technology_stack with
      | some ts => String.intercalate ", " ts.frameworks
      | none => "Not analyzed")),
    ("Complexity", .s (match r.project_complexity with
      | some pc => pc.level
      | none => "Not assessed")),
    ("Complexity Score", (match r.project_complexity with
      | some pc => match pc.score with | some n => .i n | none => .null
      | none => .s "N/A")),
    ("Has Tests", .b (match r.code_quality with | some cq => cq.has_tests | none => false)),
    ("Has Documentation", .b (match r.code_quality with
      | some cq => cq.has_documentation | none => false)),
    ("Has CI/CD", .b (match r.code_quality with | some cq => cq.has_ci_cd | none => false)),
    ("Architecture", .s (pyOrStr r.architecture_type "Not specified")),
    ("Key Features", .s (if r.key_features ≠ [] then
        String.intercalate "; " r.key_features else "Not specified")),
    ("Status", .s (if r.is_complete then "Complete"
      else if r.has_error then "Error" else "Incomplete")) ]

/-- Key lookup in a table dictionary. -/
def tableLookup (t : List (String × TableVal)) (k : String) : Option TableVal :=
  (t.find? (fun kv => kv.1 = k)).map (·.2)

/-! ## Display summary (analyze-git-projects/display.py) -/

/-- The statistics computed by `ResultsDisplay.display_summary`. In the
source, the f-string interpolates `(successful/total*100):.1f` directly; the
trailing text `if total > 0 else 0` sits outside the braces and is literal
output, not a conditional expression, so the division is evaluated
unconditionally and an empty list raises `ZeroDivisionError`. The success
rate is modelled exactly as a rational. -/
def display_summary (results_list : List AnalysisResults) :
    Except String (Nat × Nat × Nat × ℚ) :=
  let total := results_list.length
  let successful := (results_list.filter (·.is_complete)).length
  let failed := (results_list.filter (·.has_error)).length
  if total = 0 then Except.error "ZeroDivisionError: division by zero"
  else Except.ok (total, successful, failed, (successful : ℚ) / (total : ℚ) * 100)

/-! ## Python dict model (insertion-ordered association lists) -/

/-- Does the dict contain the key? -/
def dictContains (d : List (String × String)) (k : String) : Bool :=
  d.any (fun kv => kv.1 = k)

/-- Dict lookup (keys are unique in any list built via `dictSet`). -/
def dictLookup (d : List (String × String)) (k : String) : Option String :=
  (d.find? (fun kv => kv.1 = k)).map (·.2)

/-- Python `d[k] = v`: overwrite in place if the key exists (keeping its
position), otherwise append. -/
def dictSet (d : List (String × String)) (k v : String) : List (String × String) :=
  if dictContains d k then d.map (fun kv => if kv.1 = k then (k, v) else kv)
  else d ++ [(k, v)]

/-- Python `d.update(e)`: set each entry of `e` in order. -/
def dictUpdate (d e : List (String × String)) : List (String × String) :=
  e.foldl (fun acc kv => dictSet acc kv.1 kv.2) d

/-- The value the key would have in a Python dict built from the entry list
`e`: the last binding wins. -/
def dictGetLast (e : List (String × String)) (k : String) : Option String :=
  (e.reverse.find? (fun kv => kv.1 = k)).map (·.2)

/-! ## Tool-server factory (config.py, mcp_server_factory.py) -/

/-- `GitHubTool`: the enumerated GitHub toolsets (a `str` enum; with
`use_enum_values` the config stores the plain value strings). -/
inductive GitHubTool where
  | context | actions | code_security | dependabot | discussions | experiments
  | gists | issues | notifications | orgs | pull_requests | repos
  | secret_protection | users
deriving Repr, DecidableEq

/-- The string value of each toolset member. -/
def GitHubTool.value : GitHubTool → String
  | .context => "context"
  | .actions => "actions"
  | .code_security => "code_security"
  | .dependabot => "dependabot"
  | .discussions => "discussions"
  | .experiments => "experiments"
  | .gists => "gists"
  | .issues => "issues"
  | .notifications => "notifications"
  | .orgs => "orgs"
  | .pull_requests => "pull_requests"
  | .repos => "repos"
  | .secret_protection => "secret_protection"
  | .users => "users"

/-- `LogLevel`: the enumerated server log levels. -/
inductive LogLevel where
  | debug | info | warn | error
deriving Repr, DecidableEq

def LogLevel.value : LogLevel → String
  | .debug => "debug"
  | .info => "info"
  | .warn => "warn"
  | .error => "error"

/-- `DockerOptions` (config.py). The `cpus` float is modelled by its decimal
rendering `str(cpus)`, the only form in which the factory consumes it. -/
structure DockerOptions where
  name : Option String := none
  memory : Option String := none
  cpus : Option String := none
  network : Option String := none
  volumes : Option (List String) := none
  ports : Option (List String) := none
  extra_args : Option (List String) := none
deriving Repr, DecidableEq

/-- `GitHubMCPServerConfig` (config.py). -/
structure GitHubMCPServerConfig where
  github_pat : String
  read_only : Bool := true
  toolsets : List GitHubTool := []
  base_url : Option String := none
  log_level : Option LogLevel := none
  custom_env_vars : Option (List (String × String)) := none
  docker_options : Option DockerOptions := none
deriving Repr, DecidableEq

/-- `GitHubMCPServerFactory.DEFAULT_DOCKER_IMAGE`. -/
def DEFAULT_DOCKER_IMAGE : String := "ghcr.io/github/github-mcp-server"

/-- The `if config.base_url:` block of `_build_env_vars` (Python
truthiness: an absent or empty base-url string is falsy and skipped). -/
def addBaseUrl (base_url : Option String) (env_vars : List (String × String)) :
    List (String × String) :=
  match base_url with
  | some u => if u ≠ "" then dictSet env_vars "GITHUB_BASE_URL" u else env_vars
  | none => env_vars

/-- The `if config.log_level:` block of `_build_env_vars`. -/
def addLogLevel (log_level : Option LogLevel) (env_vars : List (String × String)) :
    List (String × String) :=
  match log_level with
  | some l => dictSet env_vars "LOG_LEVEL" l.value
  | none => env_vars

/-- The `if config.custom_env_vars:` merge block of `_build_env_vars`
(updating with an absent or empty dict leaves the map unchanged). -/
def addCustom (custom_env_vars : Option (List (String × String)))
    (env_vars : List (String × String)) : List (String × String) :=
  match custom_env_vars with
  | some custom => dictUpdate env_vars custom
  | none => env_vars

/-- `GitHubMCPServerFactory._build_env_vars`: the three mandatory entries,
then the optional `GITHUB_BASE_URL` / `LOG_LEVEL` entries, then
`custom_env_vars` merged last via `dict.update`. -/
def _build_env_vars (config : GitHubMCPServerConfig) : List (String × String) :=
  addCustom config.custom_env_vars (addLogLevel config.log_level
    (addBaseUrl config.base_url
      [ ("GITHUB_PERSONAL_ACCESS_TOKEN", config.github_pat),
        ("GITHUB_TOOLSETS", String.intercalate "," (config.toolsets.map GitHubTool.value)),
        ("GITHUB_READ_ONLY", if config.read_only then "1" else "0") ]))

/-- The argument fragment contributed by `DockerOptions` in
`_build_docker_args`: volumes, ports, network, name, memory, cpus,
extra args, in that fixed order (Python truthiness: `None`, empty lists and
empty strings are all falsy and skipped). -/
def dockerOptionArgs : Option DockerOptions → List String
  | none => []
  | some o =>
    ((o.volumes.getD []).flatMap (fun v => ["-v", v])) ++
    ((o.ports.getD []).flatMap (fun p => ["-p", p])) ++
    (match o.network with | some n => if n ≠ "" then ["--network", n] else [] | none => []) ++
    (match o.name with | some n => if n ≠ "" then ["--name", n] else [] | none => []) ++
    (match o.memory with | some m => if m ≠ "" then ["--memory", m] else [] | none => []) ++
    (match o.cpus with | some c => ["--cpus", c] | none => []) ++
    (o.extra_args.getD [])

/-- `GitHubMCPServerFactory._build_docker_args`: `run -i --rm`, one
`-e KEY=VALUE` pair per environment entry in dict order, the Docker option
flags, then the image name. -/
def _build_docker_args (config : GitHubMCPServerConfig)
    (env_vars : List (String × String)) : List String :=
  let args := ["run", "-i", "--rm"]
  let args := args ++ env_vars.flatMap (fun kv => ["-e", kv.1 ++ "=" ++ kv.2])
  let args := args ++ dockerOptionArgs config.docker_options
  args ++ [DEFAULT_DOCKER_IMAGE]

/-- `GitHubMCPServerFactory._build_server_from_config`: command plus built
argument list. -/
def _build_server_from_config (config : GitHubMCPServerConfig) : String × List String :=
  ("docker", _build_docker_args config (_build_env_vars config))

/-! ## The free-text regex parser (gitingest_analyzer/analyzer.py)

Each `re.search` call in `_parse_and_populate_analysis` is modelled by a
position matcher (the whole pattern anchored at one start position) scanned
over every start position left to right, which is exactly `re.search`
semantics. The patterns used by the source are `LABEL\s*(Yes|No)`,
`LABEL\s*(\d+)`, `LABEL\s*([^\n]+)`, the lazy section pattern
`LABEL(.*?)(?=\*\*|$)` with DOTALL, the bullet pattern `-\s*([^\n]+)` under
`findall`, and the purpose pattern `LABEL\s*([^\n]+(?:\n[^*]+)*)`; all are
case-insensitive. Greedy `\s*` backtracking matters only when the text after
the label is whitespace up to the end of the string, in which case `[^\n]+`
captures the run of trailing whitespace after the last newline (if any);
the matchers reproduce that. -/

/-- Case-insensitive literal match at the current position; returns the rest
of the text after the literal. -/
def matchCI : List Char → List Char → Option (List Char)
  | [], cs => some cs
  | _ :: _, [] => none
  | p :: ps, c :: cs => if p.toLower = c.toLower then matchCI ps cs else none

/-- `re.search`: try the position matcher at every start position (including
the end-of-string position), leftmost match first. -/
def scanFor {α : Type} (m : List Char → Option α) : List Char → Option α
  | [] => m []
  | c :: cs =>
    match m (c :: cs) with
    | some a => some a
    | none => scanFor m cs

/-- `LABEL\s*(Yes|No)` at one position: the boolean is the source's
`group(1).lower() == 'yes'` comparison, so the `Yes` alternative gives
`true` and the `No` alternative gives `false` in any casing. -/
def matchYesNoAt (label : List Char) (cs : List Char) : Option Bool :=
  (matchCI label cs).bind fun rest =>
    let r := rest.dropWhile isPySpace
    match matchCI ['y', 'e', 's'] r with
    | some _ => some true
    | none =>
      match matchCI ['n', 'o'] r with
      | some _ => some false
      | none => none

/-- The numeric value of a nonempty digit string. -/
def digitsToNat (ds : List Char) : Nat :=
  ds.foldl (fun n c => n * 10 + (c.toNat - 48)) 0

/-- `LABEL\s*(\d+)` at one position, returning `int(group(1))`. -/
def matchNatAt (label : List Char) (cs : List Char) : Option Nat :=
  (matchCI label cs).bind fun rest =>
    let digits := (rest.dropWhile isPySpace).takeWhile Char.isDigit
    if digits ≠ [] then some (digitsToNat digits) else none

/-- `LABEL\s*([^\n]+)` at one position, returning the raw captured group.
If only whitespace follows the label to the end of the string, `\s*`
backtracks and the group is the whitespace run after the last newline. -/
def matchLineAt (label : List Char) (cs : List Char) : Option (List Char) :=
  (matchCI label cs).bind fun rest =>
    let body := rest.dropWhile isPySpace
    if body ≠ [] then some (body.takeWhile (· ≠ '\n'))
    else
      let ws := rest.takeWhile isPySpace
      let tailWs := (ws.reverse.takeWhile (· ≠ '\n')).reverse
      if tailWs ≠ [] then some tailWs else none

/-- The lazy DOTALL group `(.*?)(?=\*\*|$)`: characters up to the first
`**`, or up to the `$` position (end of string, or just before a trailing
newline) if no `**` follows. -/
def sectionUpTo : List Char → List Char
  | [] => []
  | ['\n'] => []
  | '*' :: '*' :: _ => []
  | c :: cs => c :: sectionUpTo cs

/-- `LABEL(.*?)(?=\*\*|$)` at one position (the group always matches once
the label does, since the `$` position always qualifies). -/
def matchSectionAt (label : List Char) (cs : List Char) : Option (List Char) :=
  (matchCI label cs).map sectionUpTo

/-- One `-\s*([^\n]+)` match at the current position, returning the group
and the text after the match (for `findall`'s non-overlapping scan). -/
def matchBulletAt : List Char → Option (List Char × List Char)
  | '-' :: rest =>
    let body := rest.dropWhile isPySpace
    if body ≠ [] then
      some (body.takeWhile (· ≠ '\n'), body.dropWhile (· ≠ '\n'))
    else
      let ws := rest.takeWhile isPySpace
      let tailWs := (ws.reverse.takeWhile (· ≠ '\n')).reverse
      if tailWs ≠ [] then some (tailWs, []) else none
  | _ => none

/-- `re.findall(r'-\s*([^\n]+)', sec)` with explicit fuel (the text length
bounds the number of scan steps, so the fuel never runs out). -/
def findAllBulletsAux : Nat → List Char → List (List Char)
  | 0, _ => []
  | _ + 1, [] => []
  | fuel + 1, c :: cs =>
    match matchBulletAt (c :: cs) with
    | some (g, rest) => g :: findAllBulletsAux fuel rest
    | none => findAllBulletsAux fuel cs

def findAllBullets (cs : List Char) : List (List Char) :=
  findAllBulletsAux cs.length cs

/-- The purpose group `([^\n]+(?:\n[^*]+)*)` continuation after the first
line: at most one `(?:\n[^*]+)` iteration can succeed, because `[^*]+` is
greedy and stops only at `*` or the end, where no further `\n` can match. -/
def purposeTail : List Char → List Char
  | '\n' :: rest =>
    let run := rest.takeWhile (· ≠ '*')
    if run ≠ [] then '\n' :: run else []
  | _ => []

/-- `LABEL\s*([^\n]+(?:\n[^*]+)*)` at one position. -/
def matchPurposeAt (label : List Char) (cs : List Char) : Option (List Char) :=
  (matchCI label cs).bind fun rest =>
    let body := rest.dropWhile isPySpace
    if body ≠ [] then
      some (body.takeWhile (· ≠ '\n') ++ purposeTail (body.dropWhile (· ≠ '\n')))
    else
      let ws := rest.takeWhile isPySpace
      let tailWs := (ws.reverse.takeWhile (· ≠ '\n')).reverse
      if tailWs ≠ [] then some tailWs else none

/-- `re.search(LABEL\s*(Yes|No), text, IGNORECASE)` with the yes-comparison. -/
def searchYesNo (label : String) (t : List Char) : Option Bool :=
  scanFor (matchYesNoAt label.data) t

/-- `group(1).split(',')` followed by `.strip()` on each piece. -/
def splitCommaStrip (g : List Char) : List String :=
  (pySplit ',' (String.mk g)).map pyStrip

/-- The technology-stack extraction of `_parse_and_populate_analysis`:
seven labelled line fields, comma-split for the list fields. -/
def parse_technology_stack (t : List Char) : TechnologyStack :=
  let ts : TechnologyStack := {}
  let ts := match scanFor (matchLineAt "Primary Language:".data) t with
    | some g => { ts with primary_language := some (pyStrip (String.mk g)) }
    | none => ts
  let ts := match scanFor (matchLineAt "Languages:".data) t with
    | some g => { ts with languages := splitCommaStrip g }
    | none => ts
  let ts := match scanFor (matchLineAt "Frameworks:".data) t with
    | some g => { ts with frameworks := splitCommaStrip g }
    | none => ts
  let ts := match scanFor (matchLineAt "Tools:".data) t with
    | some g => { ts with tools := splitCommaStrip g }
    | none => ts
  let ts := match scanFor (matchLineAt "Databases:".data) t with
    | some g => { ts with databases := splitCommaStrip g }
    | none => ts
  let ts := match scanFor (matchLineAt "Deployment Tools:".data) t with
    | some g => { ts with deployment_tools := splitCommaStrip g }
    | none => ts
  match scanFor (matchLineAt "Testing Frameworks:".data) t with
  | some g => { ts with testing_frameworks := splitCommaStrip g }
  | none => ts

/-- The `Has Tests:` block of the code-quality extraction: the field is
set only when the label matches somewhere in the text. -/
def setHasTests (t : List Char) (q : CodeQualityMetrics) : CodeQualityMetrics :=
  match searchYesNo "Has Tests:" t with
  | some b => { q with has_tests := b }
  | none => q

/-- The `Has Documentation:` block. -/
def setHasDocumentation (t : List Char) (q : CodeQualityMetrics) : CodeQualityMetrics :=
  match searchYesNo "Has Documentation:" t with
  | some b => { q with has_documentation := b }
  | none => q

/-- The `Has CI/CD:` block. -/
def setHasCICD (t : List Char) (q : CodeQualityMetrics) : CodeQualityMetrics :=
  match searchYesNo "Has CI/CD:" t with
  | some b => { q with has_ci_cd := b }
  | none => q

/-- The `Has Linting:` block. -/
def setHasLinting (t : List Char) (q : CodeQualityMetrics) : CodeQualityMetrics :=
  match searchYesNo "Has Linting:" t with
  | some b => { q with has_linting := b }
  | none => q

/-- The `Has Type Checking:` block. -/
def setHasTypeChecking (t : List Char) (q : CodeQualityMetrics) : CodeQualityMetrics :=
  match searchYesNo "Has Type Checking:" t with
  | some b => { q with has_type_checking := b }
  | none => q

/-- The `Test Coverage:` block. -/
def setTestCoverage (t : List Char) (q : CodeQualityMetrics) : CodeQualityMetrics :=
  match scanFor (matchLineAt "Test Coverage:".data) t with
  | some g => { q with test_coverage := some (pyStrip (String.mk g)) }
  | none => q

/-- The `Documentation Quality:` block. -/
def setDocumentationQuality (t : List Char) (q : CodeQualityMetrics) : CodeQualityMetrics :=
  match scanFor (matchLineAt "Documentation Quality:".data) t with
  | some g => { q with documentation_quality := some (pyStrip (String.mk g)) }
  | none => q

/-- The `Code Organization:` block. -/
def setCodeOrganization (t : List Char) (q : CodeQualityMetrics) : CodeQualityMetrics :=
  match scanFor (matchLineAt "Code Organization:".data) t with
  | some g => { q with code_organization := some (pyStrip (String.mk g)) }
  | none => q

/-- The code-quality extraction of `_parse_and_populate_analysis`: starting
from a default-constructed `CodeQualityMetrics()`, each labelled block sets
its field, leaving the default when the label is absent from the text. -/
def parse_code_quality (t : List Char) : CodeQualityMetrics :=
  setCodeOrganization t (setDocumentationQuality t (setTestCoverage t
    (setHasTypeChecking t (setHasLinting t (setHasCICD t
      (setHasDocumentation t (setHasTests t {})))))))

/-- The complexity extraction of `_parse_and_populate_analysis`: only built
when the `Level:` label matches; the score is the first `Score:` number in
the text or null; validation of the pydantic score bound happens in the
caller. -/
def parse_project_complexity (t : List Char) : Option ProjectComplexity :=
  match scanFor (matchLineAt "Level:".data) t with
  | none => none
  | some lvl =>
    let score := (scanFor (matchNatAt "Score:".data) t).map Int.ofNat
    let factors := match scanFor (matchSectionAt "Complexity Factors:".data) t with
      | some sec => (findAllBullets sec).map (fun g => pyStrip (String.mk g))
      | none => []
    some { level := pyStrip (String.mk lvl), score := score, factors := factors }

/-- Is a parsed complexity record accepted by pydantic's `score` bound
(`ge=1, le=10`, null allowed)? Constructing `ProjectComplexity` with an
out-of-range score raises inside the parser's try block. -/
def complexityScoreOk (pc : ProjectComplexity) : Bool :=
  match pc.score with
  | some n => 1 ≤ n && n ≤ 10
  | none => true

/-- The technology-stack assignment step of `_parse_and_populate_analysis`
(the parsed stack is always stored). -/
def popTechStack (t : List Char) (results : AnalysisResults) : AnalysisResults :=
  { results with technology_stack := some (parse_technology_stack t) }

/-- The `**PROJECT PURPOSE:**` extraction step. -/
def popPurpose (t : List Char) (results : AnalysisResults) : AnalysisResults :=
  match scanFor (matchPurposeAt "**PROJECT PURPOSE:**".data) t with
  | some g => { results with project_purpose := some (pyStrip (String.mk g)) }
  | none => results

/-- The `**ARCHITECTURE TYPE:**` extraction step. -/
def popArchitecture (t : List Char) (results : AnalysisResults) : AnalysisResults :=
  match scanFor (matchLineAt "**ARCHITECTURE TYPE:**".data) t with
  | some g => { results with architecture_type := some (pyStrip (String.mk g)) }
  | none => results

/-- The `**KEY FEATURES:**` bullet-section extraction step. -/
def popKeyFeatures (t : List Char) (results : AnalysisResults) : AnalysisResults :=
  match scanFor (matchSectionAt "**KEY FEATURES:**".data) t with
  | some sec => { results with
      key_features := (findAllBullets sec).map (fun g => pyStrip (String.mk g)) }
  | none => results

/-- The `**DEPENDENCIES:**` bullet-section extraction step. -/
def popDependencies (t : List Char) (results : AnalysisResults) : AnalysisResults :=
  match scanFor (matchSectionAt "**DEPENDENCIES:**".data) t with
  | some sec => { results with
      dependencies := (findAllBullets sec).map (fun g => pyStrip (String.mk g)) }
  | none => results

/-- The code-quality assignment step (always stored). -/
def popCodeQuality (t : List Char) (results : AnalysisResults) : AnalysisResults :=
  { results with code_quality := some (parse_code_quality t) }

/-- The `**DEVELOPMENT PRACTICES:**` bullet-section extraction step. -/
def popPractices (t : List Char) (results : AnalysisResults) : AnalysisResults :=
  match scanFor (matchSectionAt "**DEVELOPMENT PRACTICES:**".data) t with
  | some sec => { results with
      development_practices := (findAllBullets sec).map (fun g => pyStrip (String.mk g)) }
  | none => results

/-- The complexity step followed by the practices step: store the parsed
complexity when `Level:` matched and the score passes the pydantic bound;
an out-of-range score raises inside the try block, and the except branch
overwrites with the fallback values `TechnologyStack()`,
`ProjectComplexity(level="Unknown")`, `CodeQualityMetrics()` (skipping the
practices extraction). -/
def popComplexityAndPractices (t : List Char) (results : AnalysisResults) :
    AnalysisResults :=
  match parse_project_complexity t with
  | some pc =>
    if complexityScoreOk pc then
      popPractices t { results with project_complexity := some pc }
    else
      { results with
          technology_stack := some {},
          project_complexity := some ({ level := "Unknown" } : ProjectComplexity),
          code_quality := some {} }
  | none => popPractices t results

/-- `GitIngestAnalyzer._parse_and_populate_analysis`: populates technology
stack, purpose, architecture, key features, dependencies, code quality,
complexity and development practices from the free text, block by block in
source order. The `error` field is never touched. -/
def _parse_and_populate_analysis (analysis_text : String)
    (results : AnalysisResults) : AnalysisResults :=
  let t := analysis_text.data
  popComplexityAndPractices t (popCodeQuality t (popDependencies t
    (popKeyFeatures t (popArchitecture t (popPurpose t (popTechStack t results))))))

/-! ## Analyzer orchestration (`GitIngestAnalyzer.analyze_repository`) -/

/-- The outcomes of the four externally-effectful steps of
`analyze_repository` (tool listing and the three agent runs): each either
returns output text or raises with an exception message. Entering the
MCP-server scope is folded into the first step's outcome. -/
structure StepOracle where
  list_tools : Except String (List String)
  structure_run : Except String String
  files_run : Except String String
  analysis_run : Except String String
deriving Repr

/-- `GitIngestAnalyzer.analyze_repository`: creates the result record,
runs the steps in order inside one try block — any step's exception is
caught, its message stored in `error`, and the record as mutated so far is
returned; on full success the free-text parse populates the record. -/
def analyze_repository (repo_url : String) (o : StepOracle) : AnalysisResults :=
  let results := AnalysisResults.init repo_url
  match o.list_tools with
  | Except.error e => { results with error := some e }
  | Except.ok tool_names =>
    let step1 : Except (String × AnalysisResults) AnalysisResults :=
      if tool_names.contains "git_directory_structure" then
        match o.structure_run with
        | Except.error e => Except.error (e, results)
        | Except.ok out => Except.ok ({ results with
            structure_ := some out,
            tools_used := results.tools_used ++ ["git_directory_structure"] })
      else Except.ok results
    match step1 with
    | Except.error (e, r) => { r with error := some e }
    | Except.ok r1 =>
      let step2 : Except (String × AnalysisResults) AnalysisResults :=
        if tool_names.contains "git_read_important_files" then
          match o.files_run with
          | Except.error e => Except.error (e, r1)
          | Except.ok out => Except.ok ({ r1 with
              files := some [("content", out)],
              tools_used := r1.tools_used ++ ["git_read_important_files"] })
        else Except.ok r1
      match step2 with
      | Except.error (e, r) => { r with error := some e }
      | Except.ok r2 =>
        match o.analysis_run with
        | Except.error e => { r2 with error := some e }
        | Except.ok text => _parse_and_populate_analysis text r2

/-- The message of the first failing step of an oracle, if any: the value
`analyze_repository` is expected to store in `error`. -/
def oracleFirstError (o : StepOracle) : Option String :=
  match o.list_tools with
  | Except.error e => some e
  | Except.ok tool_names =>
    match (if tool_names.contains "git_directory_structure"
           then o.structure_run else Except.ok "") with
    | Except.error e => some e
    | Except.ok _ =>
      match (if tool_names.contains "git_read_important_files"
             then o.files_run else Except.ok "") with
      | Except.error e => some e
      | Except.ok _ =>
        match o.analysis_run with
        | Except.error e => some e
        | Except.ok _ => none

/-! ## SimpleProject and its JSON round trip
(models/simple_project_schema.py) -/

/-- The JSON values a `SimpleProject` serialization can contain. -/
inductive Json where
  | null
  | str (s : String)
  | arr (xs : List Json)
  | obj (fields : List (String × Json))
deriving Repr

structure SimpleProject where
  name : String
  url : Option String := none
  description : String
  technologies : List String := []
  key_features : List String := []
  highlights : Option String := none
deriving Repr, DecidableEq

def optStrJson : Option String → Json
  | some s => .str s
  | none => .null

/-- Pydantic JSON serialization of a `SimpleProject`: every field in
declaration order, optionals as null. -/
def SimpleProject.toJson (p : SimpleProject) : Json :=
  .obj [ ("name", .str p.name),
         ("url", optStrJson p.url),
         ("description", .str p.description),
         ("technologies", .arr (p.technologies.map .str)),
         ("key_features", .arr (p.key_features.map .str)),
         ("highlights", optStrJson p.highlights) ]

/-- Field lookup inside a JSON object. -/
def jsonLookup (fields : List (String × Json)) (k : String) : Option Json :=
  (fields.find? (fun kv => kv.1 = k)).map (·.2)

def jsonAsStr : Json → Option String
  | .str s => some s
  | _ => none

/-- Validate every element of a JSON array as a string. -/
def jsonStrList : List Json → Option (List String)
  | [] => some []
  | j :: rest =>
    match jsonAsStr j with
    | some s => (jsonStrList rest).map (s :: ·)
    | none => none

def jsonAsStrList : Json → Option (List String)
  | .arr xs => jsonStrList xs
  | _ => none

def jsonAsOptStr : Json → Option (Option String)
  | .null => some none
  | .str s => some (some s)
  | _ => none

/-- Pydantic validation of a `SimpleProject` from parsed JSON: required
string fields must be present, optionals take their declared defaults when
absent or null. -/
def SimpleProject.fromJson (j : Json) : Option SimpleProject :=
  match j with
  | .obj fields => do
    let name ← (jsonLookup fields "name").bind jsonAsStr
    let description ← (jsonLookup fields "description").bind jsonAsStr
    let url ← match jsonLookup fields "url" with
      | some v => jsonAsOptStr v
      | none => some none
    let technologies ← match jsonLookup fields "technologies" with
      | some v => jsonAsStrList v
      | none => some []
    let key_features ← match jsonLookup fields "key_features" with
      | some v => jsonAsStrList v
      | none => some []
    let highlights ← match jsonLookup fields "highlights" with
      | some v => jsonAsOptStr v
      | none => some none
    pure { name := name, url := url, description := description,
           technologies := technologies, key_features := key_features,
           highlights := highlights }
  | _ => none

/-! ## Documentation analyzer input-file reader
(examples/analyze_documentation.py, read_repositories_from_file) -/

/-- Substring prefix test on character lists. -/
def isPrefixOfCh : List Char → List Char → Bool
  | [], _ => true
  | _ :: _, [] => false
  | p :: ps, c :: cs => p = c && isPrefixOfCh ps cs

/-- Python's `pat in s` substring containment. -/
def containsSubstring (pat : List Char) : List Char → Bool
  | [] => isPrefixOfCh pat []
  | c :: cs => isPrefixOfCh pat (c :: cs) || containsSubstring pat cs

/-- Python `line.startswith('#')`. -/
def startsWithHash (s : String) : Bool :=
  match s.data with
  | c :: _ => c = '#'
  | [] => false

/-- `read_repositories_from_file`, modelled on the file's line list: each
line is stripped; blank and `#`-comment lines are skipped silently; a line
is appended to the URL list when it contains `"github.com"` and splits on
`'/'` into at least 5 segments, and otherwise skipped with a warning. -/
def read_repositories_from_file (lines : List String) : List String :=
  lines.foldl
    (fun urls line =>
      let l := pyStrip line
      if l ≠ "" && !(startsWithHash l) then
        if containsSubstring "github.com".data l.data && 5 ≤ (pySplit '/' l).length then
          urls ++ [l]
        else urls
      else urls)
    []

/-- The acceptance rule exactly as the specification words it: after
stripping, a line is accepted iff it is non-empty, does not start with `#`,
contains the substring `"github.com"`, and has at least 5 `'/'`-delimited
segments. Stated independently of the reader to compare against it. -/
def specAcceptsLine (line : String) : Bool :=
  let s := pyStrip line
  s ≠ "" && !(startsWithHash s) &&
    containsSubstring "github.com".data s.data && 5 ≤ (pySplit '/' s).length

/-! ## Structured logger context discipline
(analyze_git_projects/logging.py) -/

/-- The outcome of the body of a `with logger.context(...)` block: either a
normal return or a propagating exception. -/
inductive BodyOutcome (α : Type) where
  | normal (a : α)
  | raised (e : String)
deriving Repr, DecidableEq

/-- `StructuredLogger._get_merged_context`: `{**stored_context, **context}`
— the per-call context is merged over the ambient context, per-call values
winning on key collision. -/
def _get_merged_context (stored call : List (String × String)) :
    List (String × String) :=
  dictUpdate stored call

/-- `StructuredLogger._format_message`: the message, then the merged context
as space-joined `key=value` tokens (the message alone if no context). -/
def _format_message (msg : String) (context : List (String × String)) : String :=
  if context = [] then msg
  else msg ++ " " ++ String.intercalate " " (context.map (fun kv => kv.1 ++ "=" ++ kv.2))

/-- The message one of `debug/info/warning/error/critical/exception` hands
to the underlying logger, given the ambient context and the per-call
keyword context. -/
def logLine (msg : String) (ambient call : List (String × String)) : String :=
  _format_message msg (_get_merged_context ambient call)

/-- `StructuredLogger.context(**kv)` as a whole `with` block: saves the
ambient context, sets it to the merge with `kv` for the body, and in the
`finally` clause restores the saved map regardless of how the body ended
(the body sees — and may itself further mutate — the logger state, which is
threaded through it). Returns the body's outcome and the logger's ambient
context after the block. -/
def contextBlock {α : Type} (ambient : List (String × String))
    (kv : List (String × String))
    (body : List (String × String) → BodyOutcome α × List (String × String)) :
    BodyOutcome α × List (String × String) :=
  let original_context := ambient
  let entered := dictUpdate original_context kv
  let (outcome, _stateAfterBody) := body entered
  (outcome, original_context)

/-- A fixed sample of the labelled free-text analysis format produced by
the model prompt: it contains `Has Tests: Yes` and `Score: 7` (with a
`Level:` label present) and no `Has Linting:` label. -/
def sampleAnalysisText : String :=
  "**TECHNOLOGY STACK:**\nPrimary Language: Python\nLanguages: Python, JavaScript\nFrameworks: FastAPI\n\n**PROJECT PURPOSE:**\nA batch repository analyzer.\n\n**ARCHITECTURE TYPE:**\nPipeline\n\n**KEY FEATURES:**\n- Batch analysis\n- JSON export\n\n**CODE QUALITY:**\nHas Tests: Yes\nHas Documentation: No\nHas CI/CD: Yes\n\n**PROJECT COMPLEXITY:**\nLevel: Intermediate\nScore: 7\nComplexity Factors:\n- Multiple integrations\n"

/-! # Verified properties -/

/-! ## Dictionary lemmas -/

theorem dictLookup_cons_pos {kv : String × String} {k : String} (d : List (String × String))
    (h : kv.1 = k) : dictLookup (kv :: d) k = some kv.2 := by
  simp [dictLookup, List.find?_cons_of_pos, h]

theorem dictLookup_cons_neg {kv : String × String} {k : String} (d : List (String × String))
    (h : ¬ kv.1 = k) : dictLookup (kv :: d) k = dictLookup d k := by
  simp only [dictLookup]
  rw [List.find?_cons_of_neg]
  simpa using h

theorem dictContains_cons {kv : String × String} {k : String} (d : List (String × String)) :
    dictContains (kv :: d) k = (decide (kv.1 = k) || dictContains d k) := by
  simp [dictContains]

theorem dictContains_eq (d : List (String × String)) (k : String) :
    dictContains d k = (dictLookup d k).isSome := by
  induction d with
  | nil => rfl
  | cons kv rest ih =>
    by_cases h : kv.1 = k
    · rw [dictContains_cons, dictLookup_cons_pos rest h]
      simp [h]
    · rw [dictContains_cons, dictLookup_cons_neg rest h, ih]
      simp [h]

theorem dictLookup_map_set (d : List (String × String)) (k v k' : String) :
    dictLookup (d.map (fun kv => if kv.1 = k then (k, v) else kv)) k' =
      if k' = k then (if dictContains d k then some v else none)
      else dictLookup d k' := by
  induction d with
  | nil =>
    by_cases h : k' = k <;> simp [dictLookup, dictContains, h]
  | cons kv rest ih =>
    rw [List.map_cons]
    by_cases h1 : kv.1 = k
    · rw [if_pos h1, dictContains_cons]
      by_cases h2 : k' = k
      · subst h2
        rw [dictLookup_cons_pos _ (rfl : (k', v).1 = k')]
        simp [h1]
      · have ha : ¬ ((k, v).1 = k') := fun h => h2 h.symm
        have hb : ¬ (kv.1 = k') := fun h => h2 (h1.symm.trans h).symm
        rw [dictLookup_cons_neg _ ha, ih, dictLookup_cons_neg rest hb]
        simp [h2]
    · rw [if_neg h1, dictContains_cons]
      by_cases h2 : kv.1 = k'
      · rw [dictLookup_cons_pos _ h2, dictLookup_cons_pos rest h2]
        have h3 : ¬ k' = k := fun h => h1 (h ▸ h2)
        simp [h3]
      · rw [dictLookup_cons_neg _ h2, dictLookup_cons_neg rest h2, ih]
        simp [h1]

theorem dictLookup_append_single (d : List (String × String)) (k v k' : String) :
    dictLookup (d ++ [(k, v)]) k' =
      match dictLookup d k' with
      | some w => some w
      | none => if k' = k then some v else none := by
  induction d with
  | nil =>
    by_cases h : k = k'
    · rw [List.nil_append, dictLookup_cons_pos _ (h : ((k, v)).1 = k')]
      simp [dictLookup, h.symm]
    · rw [List.nil_append, dictLookup_cons_neg _ (h : ¬ ((k, v)).1 = k')]
      have h2 : ¬ k' = k := fun hh => h hh.symm
      simp [dictLookup, h2]
  | cons kv rest ih =>
    rw [List.cons_append]
    by_cases h : kv.1 = k'
    · rw [dictLookup_cons_pos _ h, dictLookup_cons_pos rest h]
    · rw [dictLookup_cons_neg _ h, dictLookup_cons_neg rest h, ih]

theorem dictLookup_set (d : List (String × String)) (k v k' : String) :
    dictLookup (dictSet d k v) k' = if k' = k then some v else dictLookup d k' := by
  unfold dictSet
  by_cases hc : dictContains d k
  · rw [if_pos hc, dictLookup_map_set, if_pos hc]
  · rw [if_neg hc, dictLookup_append_single]
    by_cases h : k' = k
    · subst h
      rw [dictContains_eq] at hc
      have hn : dictLookup d k' = none := by
        cases hl : dictLookup d k'
        · rfl
        · rw [hl] at hc; simp at hc
      rw [hn]
    · rw [if_neg h]
      cases dictLookup d k' <;> simp [h]

theorem dictGetLast_cons (kv : String × String) (e : List (String × String)) (k : String) :
    dictGetLast (kv :: e) k =
      match dictGetLast e k with
      | some v => some v
      | none => if kv.1 = k then some kv.2 else none := by
  unfold dictGetLast
  rw [List.reverse_cons, List.find?_append]
  cases h : List.find? (fun p => decide (p.1 = k)) e.reverse
  · by_cases hk : kv.1 = k <;> simp [List.find?_cons, hk, h]
  · simp [h]

theorem dictLookup_update (d e : List (String × String)) (k : String) :
    dictLookup (dictUpdate d e) k =
      match dictGetLast e k with
      | some v => some v
      | none => dictLookup d k := by
  induction e generalizing d with
  | nil => rfl
  | cons kv rest ih =>
    show dictLookup (dictUpdate (dictSet d kv.1 kv.2) rest) k = _
    rw [ih, dictGetLast_cons]
    cases h : dictGetLast rest k
    · rw [dictLookup_set]
      by_cases hk : kv.1 = k
      · rw [if_pos (hk.symm : k = kv.1), if_pos hk]
      · rw [if_neg (fun hh => hk hh.symm), if_neg hk]
    · rfl

theorem dictContains_update_of_contains (d e : List (String × String)) (k : String)
    (h : dictContains d k = true) : dictContains (dictUpdate d e) k = true := by
  rw [dictContains_eq, dictLookup_update]
  rw [dictContains_eq] at h
  cases hg : dictGetLast e k
  · simpa using h
  · simp

theorem dictContains_set_of_contains (d : List (String × String)) (k k' v : String)
    (h : dictContains d k = true) : dictContains (dictSet d k' v) k = true := by
  rw [dictContains_eq, dictLookup_set]
  rw [dictContains_eq] at h
  by_cases hk : k = k'
  · simp [hk]
  · simpa [hk] using h

/-! ## Claim C1: URL parsing -/

/-- C1 counterexample: for the URL `"https://github.com/widgets/"` the claim
asserts `owner = "unknown"`, but the trimmed URL splits into the four
segments `https:`, ``, `github.com`, `widgets`, so the code returns
`owner = "github.com"`. -/
theorem c1_trailing_slash_owner_counterexample :
    (RepositoryInfo.from_url "https://github.com/widgets/").owner = "github.com" ∧
    ¬ (RepositoryInfo.from_url "https://github.com/widgets/").owner = "unknown" := by
  constructor
  · decide
  · decide

/-- C1 (amended): parsing derives `name` as the final `/`-separated segment
after trimming a trailing slash and `owner` as the second-to-last segment,
or `"unknown"` only when fewer than two segments exist; for
`"https://github.com/acme/widgets"` this gives name `widgets` and owner
`acme`, while for `"https://github.com/widgets/"` the four split segments
make the owner `"github.com"` (the scheme-and-host remnants count as
segments), and a bare single-segment URL like `"widgets"` gives
`owner = "unknown"`. -/
theorem c1_from_url_segments :
    (∀ url : String,
      (RepositoryInfo.from_url url).url = url ∧
      (RepositoryInfo.from_url url).name = (urlParts url).getLastD "" ∧
      ((urlParts url).length < 2 → (RepositoryInfo.from_url url).owner = "unknown") ∧
      (2 ≤ (urlParts url).length →
        (RepositoryInfo.from_url url).owner =
          ((urlParts url).get? ((urlParts url).length - 2)).getD "")) ∧
    RepositoryInfo.from_url "https://github.com/acme/widgets" =
      { url := "https://github.com/acme/widgets", name := "widgets", owner := "acme" } ∧
    (RepositoryInfo.from_url "https://github.com/widgets/").owner = "github.com" ∧
    (RepositoryInfo.from_url "widgets").owner = "unknown" := by
  refine ⟨fun url => ⟨rfl, rfl, ?_, ?_⟩, by decide, by decide, by decide⟩
  · intro h
    simp only [RepositoryInfo.from_url]
    rw [if_neg (by omega)]
  · intro h
    simp only [RepositoryInfo.from_url]
    rw [if_pos h]

/-- C1 witness: the single-segment case of the amended theorem at the
concrete input `"widgets"`. -/
theorem c1_from_url_segments_witness :
    (urlParts "widgets").length < 2 ∧
    (RepositoryInfo.from_url "widgets").owner = "unknown" :=
  ⟨by decide, ((c1_from_url_segments.1 "widgets").2.2.1) (by decide)⟩

/-! ## Claim C2: completeness and error predicates -/

/-- C2: a freshly constructed `AnalysisResults` has `is_complete = false`
and `has_error = false`; filling the three nested models on an error-free
record makes `is_complete = true`; and setting `error` to any string makes
`has_error = true` and forces `is_complete = false` for every record. -/
theorem c2_completeness_flags :
    (∀ url : String,
      (AnalysisResults.init url).is_complete = false ∧
      (AnalysisResults.init url).has_error = false) ∧
    (∀ (r : AnalysisResults) (ts : TechnologyStack) (pc : ProjectComplexity)
        (cq : CodeQualityMetrics), r.error = none →
      ({ r with
          technology_stack := some ts,
          project_complexity := some pc,
          code_quality := some cq } : AnalysisResults).is_complete = true) ∧
    (∀ (r : AnalysisResults) (e : String),
      ({ r with error := some e } : AnalysisResults).has_error = true ∧
      ({ r with error := some e } : AnalysisResults).is_complete = false) := by
  refine ⟨fun url => ⟨rfl, rfl⟩, ?_, ?_⟩
  · intro r ts pc cq h
    simp [AnalysisResults.is_complete, AnalysisResults.has_error, h]
  · intro r e
    constructor
    · rfl
    · simp [AnalysisResults.is_complete, AnalysisResults.has_error]

/-- C2 witness: the completion step of the theorem at a concrete record. -/
theorem c2_completeness_flags_witness :
    ({ AnalysisResults.init "https://github.com/acme/widgets" with
        technology_stack := some {},
        project_complexity := some ({ level := "Beginner" } : ProjectComplexity),
        code_quality := some {} } : AnalysisResults).is_complete = true :=
  c2_completeness_flags.2.1 (AnalysisResults.init "https://github.com/acme/widgets")
    {} { level := "Beginner" } {} rfl

/-! ## Claim C3: display_summary on the empty list -/

/-- C3: the success-rate interpolation of `display_summary` divides by the
record count unconditionally (the guard text `if total > 0 else 0` in the
source f-string is outside the braces, hence literal output), so the empty
list hits a `ZeroDivisionError` while any non-empty list succeeds. -/
theorem c3_display_summary_empty_division :
    display_summary [] = Except.error "ZeroDivisionError: division by zero" ∧
    (∀ (r : AnalysisResults) (rs : List AnalysisResults),
      display_summary (r :: rs) =
        Except.ok ((r :: rs).length,
          ((r :: rs).filter (·.is_complete)).length,
          ((r :: rs).filter (·.has_error)).length,
          (((r :: rs).filter (·.is_complete)).length : ℚ) / ((r :: rs).length : ℚ) * 100)) := by
  refine ⟨rfl, ?_⟩
  intro r rs
  simp [display_summary]

/-! ## Claim C7: table projection defaults -/

/-- C7: with no nested models and no error, the table projection yields the
`Not analyzed`, `Not assessed`, `N/A`, `false` and `Incomplete`
placeholders. -/
theorem c7_table_dict_defaults :
    ∀ r : AnalysisResults,
      r.technology_stack = none → r.project_complexity = none →
      r.code_quality = none → r.error = none →
      tableLookup r.to_table_dict "Languages" = some (.s "Not analyzed") ∧
      tableLookup r.to_table_dict "Complexity" = some (.s "Not assessed") ∧
      tableLookup r.to_table_dict "Complexity Score" = some (.s "N/A") ∧
      tableLookup r.to_table_dict "Has Tests" = some (.b false) ∧
      tableLookup r.to_table_dict "Status" = some (.s "Incomplete") := by
  intro r h1 h2 h3 h4
  refine ⟨?_, ?_, ?_, ?_, ?_⟩ <;>
    simp [AnalysisResults.to_table_dict, tableLookup, h1, h2, h3, h4,
      AnalysisResults.is_complete, AnalysisResults.has_error, List.find?]

/-- C7 witness: the theorem applied to a freshly initialized record. -/
theorem c7_table_dict_defaults_witness :
    tableLookup (AnalysisResults.init "https://github.com/acme/widgets").to_table_dict
        "Languages" = some (.s "Not analyzed") ∧
    tableLookup (AnalysisResults.init "https://github.com/acme/widgets").to_table_dict
        "Complexity" = some (.s "Not assessed") ∧
    tableLookup (AnalysisResults.init "https://github.com/acme/widgets").to_table_dict
        "Complexity Score" = some (.s "N/A") ∧
    tableLookup (AnalysisResults.init "https://github.com/acme/widgets").to_table_dict
        "Has Tests" = some (.b false) ∧
    tableLookup (AnalysisResults.init "https://github.com/acme/widgets").to_table_dict
        "Status" = some (.s "Incomplete") :=
  c7_table_dict_defaults (AnalysisResults.init "https://github.com/acme/widgets")
    rfl rfl rfl rfl

/-! ## Claim C8: SimpleProject JSON round trip -/

theorem jsonStrList_map_str (xs : List String) :
    jsonStrList (xs.map Json.str) = some xs := by
  induction xs with
  | nil => rfl
  | cons x rest ih => simp [jsonStrList, jsonAsStr, ih]

theorem jsonAsOptStr_optStrJson (o : Option String) :
    jsonAsOptStr (optStrJson o) = some o := by
  cases o <;> rfl

/-- C8: serializing any `SimpleProject` to JSON and validating the JSON back
reproduces the record exactly; in particular the three-technology example
round-trips, and minimal construction leaves `url`/`highlights` null and
`technologies`/`key_features` empty, as does validating a JSON object
holding only `name` and `description`. -/
theorem c8_simple_project_roundtrip :
    (∀ p : SimpleProject, SimpleProject.fromJson (SimpleProject.toJson p) = some p) ∧
    SimpleProject.fromJson (SimpleProject.toJson
        { name := "svc", description := "d",
          technologies := ["Python", "FastAPI", "PostgreSQL"] }) =
      some { name := "svc", description := "d",
             technologies := ["Python", "FastAPI", "PostgreSQL"] } ∧
    (({ name := "n", description := "d" } : SimpleProject).url = none ∧
     ({ name := "n", description := "d" } : SimpleProject).technologies = [] ∧
     ({ name := "n", description := "d" } : SimpleProject).key_features = [] ∧
     ({ name := "n", description := "d" } : SimpleProject).highlights = none) ∧
    SimpleProject.fromJson (Json.obj [("name", .str "n"), ("description", .str "d")]) =
      some { name := "n", description := "d" } := by
  have hrt : ∀ p : SimpleProject, SimpleProject.fromJson (SimpleProject.toJson p) = some p := by
    intro p
    obtain ⟨name, url, description, technologies, key_features, highlights⟩ := p
    simp [SimpleProject.toJson, SimpleProject.fromJson, jsonLookup, List.find?,
      jsonAsStr, jsonAsStrList, jsonAsOptStr_optStrJson, jsonStrList_map_str]
  exact ⟨hrt, hrt _, ⟨rfl, rfl, rfl, rfl⟩, by decide⟩

/-! ## Claim C9: input-file reader -/

theorem read_repositories_foldl (lines : List String) (acc : List String) :
    lines.foldl
      (fun urls line =>
        let l := pyStrip line
        if l ≠ "" && !(startsWithHash l) then
          if containsSubstring "github.com".data l.data && 5 ≤ (pySplit '/' l).length then
            urls ++ [l]
          else urls
        else urls) acc =
    acc ++ lines.filterMap (fun line =>
      if specAcceptsLine line then some (pyStrip line) else none) := by
  induction lines generalizing acc with
  | nil => simp
  | cons line rest ih =>
    rw [List.foldl_cons, ih, List.filterMap_cons]
    dsimp only
    by_cases hs : specAcceptsLine line = true
    · have hs' := hs
      simp only [specAcceptsLine, Bool.and_eq_true] at hs'
      have hc1 : (decide (pyStrip line ≠ "") && !(startsWithHash (pyStrip line))) = true := by
        simp only [Bool.and_eq_true]
        exact ⟨hs'.1.1.1, hs'.1.1.2⟩
      have hc2 : (containsSubstring "github.com".data (pyStrip line).data &&
          decide (5 ≤ (pySplit '/' (pyStrip line)).length)) = true := by
        simp only [Bool.and_eq_true]
        exact ⟨hs'.1.2, hs'.2⟩
      rw [if_pos hc1, if_pos hc2, if_pos hs]
      simp
    · by_cases h1 : (decide (pyStrip line ≠ "") && !(startsWithHash (pyStrip line))) = true
      · by_cases h2 : (containsSubstring "github.com".data (pyStrip line).data &&
            decide (5 ≤ (pySplit '/' (pyStrip line)).length)) = true
        · exact absurd (by
            simp only [specAcceptsLine, Bool.and_eq_true]
            simp only [Bool.and_eq_true] at h1 h2
            exact ⟨⟨⟨h1.1, h1.2⟩, h2.1⟩, h2.2⟩) hs
        · rw [if_pos h1, if_neg h2, if_neg hs]
      · rw [if_neg h1, if_neg hs]

/-- C9: the reader accepts exactly the stripped lines that are non-blank,
non-comment, contain `"github.com"`, and split into at least five
`/`-segments, preserving file order; demonstrated on a concrete file. -/
theorem c9_reader_accepts_spec :
    (∀ lines : List String,
      read_repositories_from_file lines =
        lines.filterMap (fun line =>
          if specAcceptsLine line then some (pyStrip line) else none)) ∧
    read_repositories_from_file
        ["# portfolio repos", "", "  https://github.com/acme/widgets  ",
         "not-a-url", "https://github.com/a/b", "https://example.org/x/y/z/w"] =
      ["https://github.com/acme/widgets", "https://github.com/a/b"] := by
  constructor
  · intro lines
    unfold read_repositories_from_file
    rw [read_repositories_foldl]
    rfl
  · decide

/-! ## Claim C10: structured-logger scoped context -/

/-- C10: inside `with logger.context(**kv)` the body observes the union of
the prior ambient map with `kv`, `kv` winning on collisions while
uncollided outer keys fall through (so nested scopes accumulate); on exit
the ambient map is exactly the prior one for every body, raising or not;
and per-call keyword context overrides ambient entries of the same key in
the message handed to the underlying logger, as the concrete collision
example shows. -/
theorem c10_context_merge_restore :
    (∀ ambient kv : List (String × String),
      (contextBlock ambient kv (fun st => (BodyOutcome.normal st, st))).1 =
        BodyOutcome.normal (dictUpdate ambient kv)) ∧
    (∀ (ambient kv : List (String × String)) (k v : String),
      dictGetLast kv k = some v → dictLookup (dictUpdate ambient kv) k = some v) ∧
    (∀ (ambient kv : List (String × String)) (k : String),
      dictGetLast kv k = none →
        dictLookup (dictUpdate ambient kv) k = dictLookup ambient k) ∧
    (∀ (α : Type) (ambient kv : List (String × String))
        (body : List (String × String) → BodyOutcome α × List (String × String)),
      (contextBlock ambient kv body).2 = ambient) ∧
    (∀ (msg : String) (ambient call : List (String × String)),
      logLine msg ambient call = _format_message msg (dictUpdate ambient call)) ∧
    logLine "Processing request" [("user", "ambient"), ("request_id", "req-1")]
        [("user", "per-call")] = "Processing request user=per-call request_id=req-1" := by
  refine ⟨fun ambient kv => rfl, ?_, ?_, fun α ambient kv body => rfl,
    fun msg ambient call => rfl, by decide⟩
  · intro ambient kv k v h
    rw [dictLookup_update, h]
  · intro ambient kv k h
    rw [dictLookup_update, h]

/-- C10 witness: the override and fall-through parts of the theorem at
concrete maps. -/
theorem c10_context_merge_restore_witness :
    (dictGetLast [("user", "per-call")] "user" = some "per-call" ∧
      dictLookup (dictUpdate [("user", "ambient"), ("request_id", "req-1")]
        [("user", "per-call")]) "user" = some "per-call") ∧
    (dictGetLast [("user", "per-call")] "request_id" = none ∧
      dictLookup (dictUpdate [("user", "ambient"), ("request_id", "req-1")]
          [("user", "per-call")]) "request_id" =
        dictLookup [("user", "ambient"), ("request_id", "req-1")] "request_id") :=
  ⟨⟨by decide, c10_context_merge_restore.2.1 [("user", "ambient"), ("request_id", "req-1")]
      [("user", "per-call")] "user" "per-call" (by decide)⟩,
   ⟨by decide, c10_context_merge_restore.2.2.1 [("user", "ambient"), ("request_id", "req-1")]
      [("user", "per-call")] "request_id" (by decide)⟩⟩

/-! ## Claim C4: tool-server factory argument list -/

theorem addBaseUrl_lookup (bu : Option String) (d : List (String × String)) (k : String)
    (hk : ¬ k = "GITHUB_BASE_URL") : dictLookup (addBaseUrl bu d) k = dictLookup d k := by
  cases bu with
  | none => rfl
  | some u =>
    show dictLookup (if u ≠ "" then dictSet d "GITHUB_BASE_URL" u else d) k = dictLookup d k
    by_cases hu : u ≠ ""
    · rw [if_pos hu, dictLookup_set, if_neg hk]
    · rw [if_neg hu]

theorem addLogLevel_lookup (ll : Option LogLevel) (d : List (String × String)) (k : String)
    (hk : ¬ k = "LOG_LEVEL") : dictLookup (addLogLevel ll d) k = dictLookup d k := by
  cases ll with
  | none => rfl
  | some l =>
    show dictLookup (dictSet d "LOG_LEVEL" l.value) k = dictLookup d k
    rw [dictLookup_set, if_neg hk]

theorem addBaseUrl_contains (bu : Option String) (d : List (String × String)) (k : String)
    (h : dictContains d k = true) : dictContains (addBaseUrl bu d) k = true := by
  cases bu with
  | none => exact h
  | some u =>
    show dictContains (if u ≠ "" then dictSet d "GITHUB_BASE_URL" u else d) k = true
    by_cases hu : u ≠ ""
    · rw [if_pos hu]; exact dictContains_set_of_contains _ _ _ _ h
    · rw [if_neg hu]; exact h

theorem addLogLevel_contains (ll : Option LogLevel) (d : List (String × String)) (k : String)
    (h : dictContains d k = true) : dictContains (addLogLevel ll d) k = true := by
  cases ll with
  | none => exact h
  | some l =>
    show dictContains (dictSet d "LOG_LEVEL" l.value) k = true
    exact dictContains_set_of_contains _ _ _ _ h

theorem addCustom_contains (cev : Option (List (String × String)))
    (d : List (String × String)) (k : String)
    (h : dictContains d k = true) : dictContains (addCustom cev d) k = true := by
  cases cev with
  | none => exact h
  | some custom => exact dictContains_update_of_contains _ _ _ h

theorem envPairs_length (l : List (String × String)) :
    (l.flatMap (fun kv => ["-e", kv.1 ++ "=" ++ kv.2])).length = 2 * l.length := by
  induction l with
  | nil => rfl
  | cons kv rest ih =>
    rw [List.flatMap_cons]
    simp [ih, Nat.mul_succ]

/-- C4: for every configuration the built docker argument list starts with
`run -i --rm`, continues with one `-e KEY=VALUE` pair per environment entry
in dict order, and ends with the image name; the three mandatory keys are
always present, keep their computed values when no custom variables are
given, and any custom entry's (last) value wins the final lookup. -/
theorem c4_factory_args (config : GitHubMCPServerConfig) :
    ((_build_docker_args config (_build_env_vars config)).take 3 = ["run", "-i", "--rm"]) ∧
    (((_build_docker_args config (_build_env_vars config)).drop 3).take
        (2 * (_build_env_vars config).length) =
      (_build_env_vars config).flatMap (fun kv => ["-e", kv.1 ++ "=" ++ kv.2])) ∧
    dictContains (_build_env_vars config) "GITHUB_PERSONAL_ACCESS_TOKEN" = true ∧
    dictContains (_build_env_vars config) "GITHUB_TOOLSETS" = true ∧
    dictContains (_build_env_vars config) "GITHUB_READ_ONLY" = true ∧
    (config.custom_env_vars = none →
      dictLookup (_build_env_vars config) "GITHUB_PERSONAL_ACCESS_TOKEN" =
        some config.github_pat ∧
      dictLookup (_build_env_vars config) "GITHUB_TOOLSETS" =
        some (String.intercalate "," (config.toolsets.map GitHubTool.value)) ∧
      dictLookup (_build_env_vars config) "GITHUB_READ_ONLY" =
        some (if config.read_only then "1" else "0")) ∧
    (∀ (custom : List (String × String)) (k v : String),
      config.custom_env_vars = some custom → dictGetLast custom k = some v →
      dictLookup (_build_env_vars config) k = some v) ∧
    (_build_docker_args config (_build_env_vars config)).getLast? =
      some "ghcr.io/github/github-mcp-server" := by
  have hbase : ∀ k : String, ¬ k = "GITHUB_BASE_URL" → ¬ k = "LOG_LEVEL" →
      config.custom_env_vars = none →
      dictLookup (_build_env_vars config) k =
        dictLookup
          [ ("GITHUB_PERSONAL_ACCESS_TOKEN", config.github_pat),
            ("GITHUB_TOOLSETS", String.intercalate "," (config.toolsets.map GitHubTool.value)),
            ("GITHUB_READ_ONLY", if config.read_only then "1" else "0") ] k := by
    intro k hk1 hk2 hce
    unfold _build_env_vars
    rw [hce]
    show dictLookup (addLogLevel _ _) k = _
    rw [addLogLevel_lookup _ _ _ hk2, addBaseUrl_lookup _ _ _ hk1]
  have hcont : ∀ k : String,
      dictContains
        [ ("GITHUB_PERSONAL_ACCESS_TOKEN", config.github_pat),
          ("GITHUB_TOOLSETS", String.intercalate "," (config.toolsets.map GitHubTool.value)),
          ("GITHUB_READ_ONLY", if config.read_only then "1" else "0") ] k = true →
      dictContains (_build_env_vars config) k = true := by
    intro k h
    unfold _build_env_vars
    exact addCustom_contains _ _ _ (addLogLevel_contains _ _ _ (addBaseUrl_contains _ _ _ h))
  refine ⟨rfl, ?_, ?_, ?_, ?_, ?_, ?_, ?_⟩
  · have hdrop : (_build_docker_args config (_build_env_vars config)).drop 3 =
        ((_build_env_vars config).flatMap (fun kv => ["-e", kv.1 ++ "=" ++ kv.2]) ++
          dockerOptionArgs config.docker_options) ++ ["ghcr.io/github/github-mcp-server"] := rfl
    rw [hdrop, List.append_assoc, ← envPairs_length (_build_env_vars config)]
    exact List.take_left _ _
  · exact hcont _ (by simp [dictContains])
  · exact hcont _ (by simp [dictContains])
  · exact hcont _ (by simp [dictContains])
  · intro hce
    refine ⟨?_, ?_, ?_⟩ <;> rw [hbase _ (by decide) (by decide) hce] <;> rfl
  · intro custom k v hce hlast
    unfold _build_env_vars
    rw [hce]
    show dictLookup (dictUpdate _ custom) k = _
    rw [dictLookup_update, hlast]
  · have hlast : ∀ (L : List String) (a : String), (L ++ [a]).getLast? = some a := by
      intro L a
      simp
    show ((["run", "-i", "--rm"] ++
        (_build_env_vars config).flatMap (fun kv => ["-e", kv.1 ++ "=" ++ kv.2]) ++
        dockerOptionArgs config.docker_options) ++
        ["ghcr.io/github/github-mcp-server"]).getLast? = _
    exact hlast _ _

/-- C4 witness: the theorem at the specification's fixed configuration
(`github_pat="ghp_x"`, read-only, toolsets `[repos]`). -/
theorem c4_factory_args_witness :
    dictLookup (_build_env_vars { github_pat := "ghp_x", read_only := true, toolsets := [GitHubTool.repos] }) "GITHUB_PERSONAL_ACCESS_TOKEN" = some "ghp_x" ∧
    dictLookup (_build_env_vars { github_pat := "ghp_x", read_only := true, toolsets := [GitHubTool.repos] }) "GITHUB_TOOLSETS" = some "repos" ∧
    dictLookup (_build_env_vars { github_pat := "ghp_x", read_only := true, toolsets := [GitHubTool.repos] }) "GITHUB_READ_ONLY" = some "1" ∧
    (_build_docker_args { github_pat := "ghp_x", read_only := true, toolsets := [GitHubTool.repos] }
      (_build_env_vars { github_pat := "ghp_x", read_only := true, toolsets := [GitHubTool.repos] })).take 3 = ["run", "-i", "--rm"] ∧
    (_build_docker_args { github_pat := "ghp_x", read_only := true, toolsets := [GitHubTool.repos] }
      (_build_env_vars { github_pat := "ghp_x", read_only := true, toolsets := [GitHubTool.repos] })).getLast? =
      some "ghcr.io/github/github-mcp-server" := by
  have h := c4_factory_args
    { github_pat := "ghp_x", read_only := true, toolsets := [GitHubTool.repos] }
  obtain ⟨h1, _, _, _, _, h6, _, h8⟩ := h
  have hv := h6 rfl
  exact ⟨hv.1, hv.2.1, hv.2.2, h1, h8⟩

/-! ## Claim C5: free-text regex parsing -/

theorem matchCI_some_lower {p cs r : List Char} (h : matchCI p cs = some r) :
    isPrefixOfCh (p.map Char.toLower) (cs.map Char.toLower) = true := by
  induction p generalizing cs with
  | nil => rfl
  | cons a ps ih =>
    cases cs with
    | nil => exact absurd h (by simp [matchCI])
    | cons c cs' =>
      simp only [matchCI] at h
      by_cases hc : a.toLower = c.toLower
      · rw [if_pos hc] at h
        simp [isPrefixOfCh, hc, ih h]
      · rw [if_neg hc] at h
        exact absurd h (by simp)

theorem scanFor_some_lower_contains {α : Type} (m : List Char → Option α)
    (pat : List Char)
    (hm : ∀ cs (a : α), m cs = some a →
      isPrefixOfCh pat (cs.map Char.toLower) = true) :
    ∀ (t : List Char) (a : α), scanFor m t = some a →
      containsSubstring pat (t.map Char.toLower) = true := by
  intro t
  induction t with
  | nil =>
    intro a h
    simp only [scanFor] at h
    simpa [containsSubstring] using hm [] a h
  | cons c cs ih =>
    intro a h
    simp only [scanFor] at h
    cases hm1 : m (c :: cs) with
    | some b =>
      have hp := hm _ b hm1
      simp only [List.map_cons] at hp
      simp [containsSubstring, List.map_cons, hp]
    | none =>
      rw [hm1] at h
      simp [containsSubstring, List.map_cons, ih a h]

theorem searchYesNo_some_contains {label : String} {t : List Char} {b : Bool}
    (h : searchYesNo label t = some b) :
    containsSubstring (label.data.map Char.toLower) (t.map Char.toLower) = true := by
  refine scanFor_some_lower_contains (matchYesNoAt label.data) _ ?_ t b h
  intro cs a hm
  unfold matchYesNoAt at hm
  cases hmc : matchCI label.data cs with
  | none => rw [hmc] at hm; exact absurd hm (by simp)
  | some r => exact matchCI_some_lower hmc

theorem setHasTests_has_linting (t : List Char) (q : CodeQualityMetrics) :
    (setHasTests t q).has_linting = q.has_linting := by
  unfold setHasTests; split <;> rfl

theorem setHasDocumentation_has_linting (t : List Char) (q : CodeQualityMetrics) :
    (setHasDocumentation t q).has_linting = q.has_linting := by
  unfold setHasDocumentation; split <;> rfl

theorem setHasCICD_has_linting (t : List Char) (q : CodeQualityMetrics) :
    (setHasCICD t q).has_linting = q.has_linting := by
  unfold setHasCICD; split <;> rfl

theorem setHasTypeChecking_has_linting (t : List Char) (q : CodeQualityMetrics) :
    (setHasTypeChecking t q).has_linting = q.has_linting := by
  unfold setHasTypeChecking; split <;> rfl

theorem setTestCoverage_has_linting (t : List Char) (q : CodeQualityMetrics) :
    (setTestCoverage t q).has_linting = q.has_linting := by
  unfold setTestCoverage; split <;> rfl

theorem setDocumentationQuality_has_linting (t : List Char) (q : CodeQualityMetrics) :
    (setDocumentationQuality t q).has_linting = q.has_linting := by
  unfold setDocumentationQuality; split <;> rfl

theorem setCodeOrganization_has_linting (t : List Char) (q : CodeQualityMetrics) :
    (setCodeOrganization t q).has_linting = q.has_linting := by
  unfold setCodeOrganization; split <;> rfl

theorem parse_code_quality_has_linting_of_none {t : List Char}
    (h : searchYesNo "Has Linting:" t = none) :
    (parse_code_quality t).has_linting = false := by
  unfold parse_code_quality
  rw [setCodeOrganization_has_linting, setDocumentationQuality_has_linting,
    setTestCoverage_has_linting, setHasTypeChecking_has_linting]
  unfold setHasLinting
  rw [h]
  rw [setHasCICD_has_linting, setHasDocumentation_has_linting, setHasTests_has_linting]

set_option maxRecDepth 100000 in
set_option maxHeartbeats 1000000 in
/-- C5: on the fixed sample text the parser yields `has_tests = true` and
`project_complexity.score = 7` (with the `Level:` label present); boolean
capture compares case-insensitively to `yes` (`has tests: YES` sets the
field true, `Has Tests: No` sets it false); and a text whose
`Has Linting:` label is absent leaves `has_linting` at its default `false`
instead of raising — both in general (no case-insensitive occurrence of
the label implies the default) and on the sample text. -/
theorem c5_free_text_parsing :
    ((_parse_and_populate_analysis sampleAnalysisText
        (AnalysisResults.init "https://github.com/acme/widgets")).code_quality.map
      CodeQualityMetrics.has_tests = some true) ∧
    ((_parse_and_populate_analysis sampleAnalysisText
        (AnalysisResults.init "https://github.com/acme/widgets")).project_complexity.map
      ProjectComplexity.score = some (some 7)) ∧
    (parse_code_quality "Summary:\nhas tests: YES\n".data).has_tests = true ∧
    (parse_code_quality "Summary:\nHas Tests: No\n".data).has_tests = false ∧
    (∀ t : List Char,
      containsSubstring ("Has Linting:".data.map Char.toLower)
        (t.map Char.toLower) = false →
      (parse_code_quality t).has_linting = false) ∧
    (parse_code_quality sampleAnalysisText.data).has_linting = false := by
  refine ⟨by decide, by decide, by decide, by decide, ?_, by decide⟩
  intro t hc
  refine parse_code_quality_has_linting_of_none ?_
  cases h : searchYesNo "Has Linting:" t with
  | none => rfl
  | some b => exact absurd (searchYesNo_some_contains h) (by rw [hc]; simp)

set_option maxRecDepth 100000 in
set_option maxHeartbeats 1000000 in
/-- C5 witness: the absent-label part of the theorem at the sample text. -/
theorem c5_free_text_parsing_witness :
    containsSubstring ("Has Linting:".data.map Char.toLower)
      (sampleAnalysisText.data.map Char.toLower) = false ∧
    (parse_code_quality sampleAnalysisText.data).has_linting = false :=
  ⟨by decide, c5_free_text_parsing.2.2.2.2.1 sampleAnalysisText.data (by decide)⟩

/-! ## Claim C6: analyzer error handling -/

theorem popTechStack_error (t : List Char) (r : AnalysisResults) :
    (popTechStack t r).error = r.error := rfl

theorem popPurpose_error (t : List Char) (r : AnalysisResults) :
    (popPurpose t r).error = r.error := by
  unfold popPurpose; split <;> rfl

theorem popArchitecture_error (t : List Char) (r : AnalysisResults) :
    (popArchitecture t r).error = r.error := by
  unfold popArchitecture; split <;> rfl

theorem popKeyFeatures_error (t : List Char) (r : AnalysisResults) :
    (popKeyFeatures t r).error = r.error := by
  unfold popKeyFeatures; split <;> rfl

theorem popDependencies_error (t : List Char) (r : AnalysisResults) :
    (popDependencies t r).error = r.error := by
  unfold popDependencies; split <;> rfl

theorem popCodeQuality_error (t : List Char) (r : AnalysisResults) :
    (popCodeQuality t r).error = r.error := rfl

theorem popPractices_error (t : List Char) (r : AnalysisResults) :
    (popPractices t r).error = r.error := by
  unfold popPractices; split <;> rfl

theorem popComplexityAndPractices_error (t : List Char) (r : AnalysisResults) :
    (popComplexityAndPractices t r).error = r.error := by
  unfold popComplexityAndPractices
  split
  · split
    · rw [popPractices_error]
    · rfl
  · rw [popPractices_error]

theorem parse_populate_error (text : String) (r : AnalysisResults) :
    (_parse_and_populate_analysis text r).error = r.error := by
  unfold _parse_and_populate_analysis
  rw [popComplexityAndPractices_error, popCodeQuality_error, popDependencies_error,
    popKeyFeatures_error, popArchitecture_error, popPurpose_error, popTechStack_error]

theorem popTechStack_repo_url (t : List Char) (r : AnalysisResults) :
    (popTechStack t r).repo_url = r.repo_url := rfl

theorem popPurpose_repo_url (t : List Char) (r : AnalysisResults) :
    (popPurpose t r).repo_url = r.repo_url := by
  unfold popPurpose; split <;> rfl

theorem popArchitecture_repo_url (t : List Char) (r : AnalysisResults) :
    (popArchitecture t r).repo_url = r.repo_url := by
  unfold popArchitecture; split <;> rfl

theorem popKeyFeatures_repo_url (t : List Char) (r : AnalysisResults) :
    (popKeyFeatures t r).repo_url = r.repo_url := by
  unfold popKeyFeatures; split <;> rfl

theorem popDependencies_repo_url (t : List Char) (r : AnalysisResults) :
    (popDependencies t r).repo_url = r.repo_url := by
  unfold popDependencies; split <;> rfl

theorem popCodeQuality_repo_url (t : List Char) (r : AnalysisResults) :
    (popCodeQuality t r).repo_url = r.repo_url := rfl

theorem popPractices_repo_url (t : List Char) (r : AnalysisResults) :
    (popPractices t r).repo_url = r.repo_url := by
  unfold popPractices; split <;> rfl

theorem popComplexityAndPractices_repo_url (t : List Char) (r : AnalysisResults) :
    (popComplexityAndPractices t r).repo_url = r.repo_url := by
  unfold popComplexityAndPractices
  split
  · split
    · rw [popPractices_repo_url]
    · rfl
  · rw [popPractices_repo_url]

theorem parse_populate_repo_url (text : String) (r : AnalysisResults) :
    (_parse_and_populate_analysis text r).repo_url = r.repo_url := by
  unfold _parse_and_populate_analysis
  rw [popComplexityAndPractices_repo_url, popCodeQuality_repo_url,
    popDependencies_repo_url, popKeyFeatures_repo_url, popArchitecture_repo_url,
    popPurpose_repo_url, popTechStack_repo_url]

theorem analyze_repository_invariants (url : String) (o : StepOracle) :
    (analyze_repository url o).repo_url = url ∧
    (analyze_repository url o).error = oracleFirstError o := by
  unfold analyze_repository oracleFirstError
  cases hlt : o.list_tools with
  | error e => refine ⟨?_, ?_⟩ <;> rfl
  | ok tools =>
    try dsimp only
    by_cases h1 : tools.contains "git_directory_structure" = true
    · simp only [if_pos h1]
      cases hsr : o.structure_run with
      | error e => refine ⟨?_, ?_⟩ <;> rfl
      | ok sout =>
        try dsimp only
        by_cases h2 : tools.contains "git_read_important_files" = true
        · simp only [if_pos h2]
          cases hfr : o.files_run with
          | error e => refine ⟨?_, ?_⟩ <;> rfl
          | ok fout =>
            try dsimp only
            cases har : o.analysis_run with
            | error e => refine ⟨?_, ?_⟩ <;> rfl
            | ok text =>
              try dsimp only
              rw [parse_populate_repo_url, parse_populate_error]
              refine ⟨?_, ?_⟩ <;> rfl
        · simp only [if_neg h2]
          cases har : o.analysis_run with
          | error e => refine ⟨?_, ?_⟩ <;> rfl
          | ok text =>
            try dsimp only
            rw [parse_populate_repo_url, parse_populate_error]
            refine ⟨?_, ?_⟩ <;> rfl
    · simp only [if_neg h1]
      try dsimp only
      by_cases h2 : tools.contains "git_read_important_files" = true
      · simp only [if_pos h2]
        cases hfr : o.files_run with
        | error e => refine ⟨?_, ?_⟩ <;> rfl
        | ok fout =>
          try dsimp only
          cases har : o.analysis_run with
          | error e => refine ⟨?_, ?_⟩ <;> rfl
          | ok text =>
            try dsimp only
            rw [parse_populate_repo_url, parse_populate_error]
            refine ⟨?_, ?_⟩ <;> rfl
      · simp only [if_neg h2]
        cases har : o.analysis_run with
        | error e => refine ⟨?_, ?_⟩ <;> rfl
        | ok text =>
          try dsimp only
          rw [parse_populate_repo_url, parse_populate_error]
          refine ⟨?_, ?_⟩ <;> rfl

/-- C6: `analyze_repository` always returns a record carrying the requested
URL; its `error` field is exactly the message of the first failing step (so
every step exception is caught and stored, and `error` is null when all
steps succeed); and when the file-reading step fails after a successful
structure step, the returned record keeps the structure text and tool list
from the earlier step while the remaining fields stay at their initial
values. -/
theorem c6_analyze_repository_error_handling :
    (∀ (url : String) (o : StepOracle), (analyze_repository url o).repo_url = url) ∧
    (∀ (url : String) (o : StepOracle),
      (analyze_repository url o).error = oracleFirstError o) ∧
    (∀ (url : String) (o : StepOracle) (ts : List String) (s m : String),
      o.list_tools = Except.ok ts →
      ts.contains "git_directory_structure" = true →
      ts.contains "git_read_important_files" = true →
      o.structure_run = Except.ok s →
      o.files_run = Except.error m →
      analyze_repository url o =
        { AnalysisResults.init url with
            structure_ := some s,
            tools_used := ["git_directory_structure"],
            error := some m }) := by
  refine ⟨fun url o => (analyze_repository_invariants url o).1,
    fun url o => (analyze_repository_invariants url o).2, ?_⟩
  intro url o ts s m hlt h1 h2 hsr hfr
  unfold analyze_repository
  rw [hlt]
  try dsimp only
  simp only [if_pos h1, if_pos h2]
  rw [hsr, hfr]
  rfl

/-- C6 witness: the partial-failure scenario of the theorem at a concrete
oracle whose file-reading step raises. -/
theorem c6_analyze_repository_error_handling_witness :
    analyze_repository "https://github.com/acme/widgets"
      { list_tools := Except.ok ["git_directory_structure", "git_read_important_files"],
        structure_run := Except.ok "src/\n  main.py",
        files_run := Except.error "network unreachable",
        analysis_run := Except.ok "" } =
      { AnalysisResults.init "https://github.com/acme/widgets" with
          structure_ := some "src/\n  main.py",
          tools_used := ["git_directory_structure"],
          error := some "network unreachable" } :=
  c6_analyze_repository_error_handling.2.2 "https://github.com/acme/widgets"
    { list_tools := Except.ok ["git_directory_structure", "git_read_important_files"],
      structure_run := Except.ok "src/\n  main.py",
      files_run := Except.error "network unreachable",
      analysis_run := Except.ok "" }
    ["git_directory_structure", "git_read_important_files"]
    "src/\n  main.py" "network unreachable" rfl (by decide) (by decide) rfl rfl
